import Mathlib

/-!
Verification of the fuse-overlayfs composition engine (src/main.c) against its
natural-language specification.  Every definition below is a shallow embedding
of a concrete function of src/main.c; stateful code is modelled by explicit
state passing, machine integers by Nat/Int, and fallible syscalls by
Option/Except or by boolean outcome parameters supplied in an environment
record.
-/

namespace Ovl

/-! Errno constants used by the handlers (Linux values). -/

def ENOENT : Nat := 2
def EPERM : Nat := 1
def EIOval : Nat := 5
def ENOMEM : Nat := 12
def EROFS : Nat := 30
def ENAMETOOLONG : Nat := 36
def ENOSYS : Nat := 38
def ENOTEMPTY : Nat := 39
def ENODATA : Nat := 61
def EBADMSG : Nat := 74

/-! ## Block crypto primitives (src/main.c lines 3833-4020)

Buffers are lists of byte values; XOR on Nat agrees with byte XOR and the
transforms never grow a value past a byte, but none of the proofs need the
bound so it is not carried around.  -/

/-- Embeds shuffleBytes (main.c 3853): the C loop `buf[i+1] ^= buf[i]` where
`buf[i]` is the already-updated value, i.e. a running XOR cascade.  The
accumulator is the updated previous byte. -/
def shuffleAux (prev : Nat) : List Nat → List Nat
  | [] => []
  | b :: bs => (prev ^^^ b) :: shuffleAux (prev ^^^ b) bs

def shuffleBytes : List Nat → List Nat
  | [] => []
  | a :: rest => a :: shuffleAux a rest

/-- Embeds unshuffleBytes (main.c 3862): `buf[i] ^= buf[i-1]` walking from the
end down, so every step reads the original previous byte. -/
def unshuffleAux (prev : Nat) : List Nat → List Nat
  | [] => []
  | b :: bs => (prev ^^^ b) :: unshuffleAux b bs

def unshuffleBytes : List Nat → List Nat
  | [] => []
  | a :: rest => a :: unshuffleAux a rest

/-- Embeds flipBytes (main.c 3833): the buffer is reversed in consecutive
chunks of 64 bytes (the size of the local revBuf), not as a whole. -/
def flipBytes (l : List Nat) : List Nat :=
  if _hle : l.length ≤ 64 then l.reverse
  else (l.take 64).reverse ++ flipBytes (l.drop 64)
termination_by l.length
decreasing_by
  simp only [List.length_drop]
  omega

/-- Abstract model of the per-node EVP cipher contexts (main.c 1903-1934):
a keyed, IV-indexed family of length-preserving byte-list transformations in
which decryption inverts encryption (CBC with padding disabled for the block
pair, CFB for the stream pair).  The concrete OpenSSL primitives are outside
the repository; only these laws are used by the code. -/
structure CipherCtx where
  blockEnc : Nat → List Nat → List Nat
  blockDec : Nat → List Nat → List Nat
  streamEnc : Nat → List Nat → List Nat
  streamDec : Nat → List Nat → List Nat
  blockBS : Nat
  blockEnc_length : ∀ iv l, (blockEnc iv l).length = l.length
  streamEnc_length : ∀ iv l, (streamEnc iv l).length = l.length
  blockDec_enc : ∀ iv l, blockDec iv (blockEnc iv l) = l
  streamDec_enc : ∀ iv l, streamDec iv (streamEnc iv l) = l

/-- Embeds streamEncode (main.c 3874): shuffle, encrypt with the IV derived
from the block number, flip, shuffle again, encrypt with the IV derived from
the successor block number; fails (none) exactly when the produced length
differs from the input length, mirroring the dstLen check. -/
def streamEncode (C : CipherCtx) (buf : List Nat) (iv64 : Nat) : Option (List Nat) :=
  let out := C.streamEnc (iv64 + 1) (shuffleBytes (flipBytes (C.streamEnc iv64 (shuffleBytes buf))))
  if out.length = buf.length then some out else none

/-- Embeds streamDecode (main.c 3911): decrypt with the successor IV,
unshuffle, flip, decrypt with the base IV, unshuffle; the dstLen check again
becomes a length comparison. -/
def streamDecode (C : CipherCtx) (buf : List Nat) (iv64 : Nat) : Option (List Nat) :=
  let out := unshuffleBytes (C.streamDec iv64 (flipBytes (unshuffleBytes (C.streamDec (iv64 + 1) buf))))
  if out.length = buf.length then some out else none

/-- Embeds blockEncode (main.c 3948): rejects a length that is not a multiple
of the cipher block size, otherwise encrypts in place with the derived IV and
checks the produced length. -/
def blockEncode (C : CipherCtx) (buf : List Nat) (iv64 : Nat) : Option (List Nat) :=
  if buf.length % C.blockBS ≠ 0 then none
  else
    let out := C.blockEnc iv64 buf
    if out.length = buf.length then some out else none

/-- Embeds blockDecode (main.c 3985), symmetric to blockEncode. -/
def blockDecode (C : CipherCtx) (buf : List Nat) (iv64 : Nat) : Option (List Nat) :=
  if buf.length % C.blockBS ≠ 0 then none
  else
    let out := C.blockDec iv64 buf
    if out.length = buf.length then some out else none

/-- Concrete instance of the cipher model used for witnesses: XOR of every
byte with an IV-derived pad.  Length-preserving and self-inverting. -/
def xorCipher : CipherCtx where
  blockEnc := fun iv l => l.map (fun b => b ^^^ (iv % 256))
  blockDec := fun iv l => l.map (fun b => b ^^^ (iv % 256))
  streamEnc := fun iv l => l.map (fun b => b ^^^ ((iv + 7) % 256))
  streamDec := fun iv l => l.map (fun b => b ^^^ ((iv + 7) % 256))
  blockBS := 1
  blockEnc_length := by intro iv l; simp
  streamEnc_length := by intro iv l; simp
  blockDec_enc := by
    intro iv l
    induction l with
    | nil => rfl
    | cons b bs ih => simp [ih, Nat.xor_assoc]
  streamDec_enc := by
    intro iv l
    induction l with
    | nil => rfl
    | cons b bs ih => simp [ih, Nat.xor_assoc]

/-! ## Access gate (src/main.c lines 1066-1310)

Process names are byte strings modelled as lists of characters; the
/proc/pid/stat parse of isInBox is modelled by a process table mapping a pid
to its short name and parent pid, with none standing for a stat failure.  -/

/-- Embeds has_prefix (main.c 576); also models the strncmp calls of isInBox,
which compare exactly the length of the literal prefixes. -/
def hasPref : List Char → List Char → Bool
  | _, [] => true
  | [], _ :: _ => false
  | c :: cs, p :: ps => if p ≠ c then false else hasPref cs ps

/-- The eight short-name literals accepted by isInBox (main.c 1129-1171). -/
def gTrustedNames : List (List Char) :=
  ["firejail".toList, "EnDeskTop".toList, "uebm".toList, "StreamTran".toList,
   "BgIOThr~Poo".toList, "TaskCon~lle".toList, "apport".toList, "Backgro~Poo".toList]

def trustedName (name : List Char) : Bool :=
  gTrustedNames.any (fun p => hasPref name p)

/-- A /proc snapshot: pid to (short name, parent pid); none when
stat("/proc/pid/stat") fails. -/
def ProcTable := Nat → Option (List Char × Nat)

/-- Embeds the isInBox loop (main.c 1066-1181) with explicit fuel; none means
the fuel ran out (the C loop would still be walking).  The branch order is
the order of the source: idle pid 0 accepts, init pid 1 rejects, kthreadd
pid 2 accepts, the recorded manager pid accepts, a stat failure rejects, a
trusted short-name prefix accepts, otherwise the walk moves to the parent. -/
def isInBox (t : ProcTable) (mgr : Nat) : Nat → Nat → Option Bool
  | 0, _ => none
  | fuel + 1, pid =>
    if pid = 0 then some true
    else if pid = 1 then some false
    else if pid = 2 then some true
    else if pid = mgr then some true
    else
      match t pid with
      | none => some false
      | some (name, ppid) =>
        if trustedName name then some true else isInBox t mgr fuel ppid

/-- Embeds checkAuthority (main.c 1183): the root inode is always accepted,
any other target delegates to the ancestor walk. -/
def checkAuthority (t : ProcTable) (mgr : Nat) (fuel : Nat)
    (ino rootId : Nat) (pid : Nat) : Option Bool :=
  if ino = rootId then some true else isInBox t mgr fuel pid

/-- Models the uniform call-site pattern of every request handler: a false
checkAuthority result is answered with fuse_reply_err(req, ENOENT) (all 30
call sites in main.c use exactly this reply); a true result lets the handler
proceed (no error reply from the gate). -/
def authorityReply (accept : Bool) : Option Nat :=
  if accept then none else some ENOENT

/-- Spec-side predicate for claim C1, following the spec sentence: the walk
accepts exactly when it reaches the idle task, kthreadd, the recorded manager
pid, or a trusted short-name prefix, before reaching init (pid 1) or a pid
whose stat fails.  Ties at a single pid follow the precedence of the walk:
pid 0 outranks everything, init outranks the manager check and the prefix
check, a stat failure outranks the prefix check. -/
inductive WalkAccepts (t : ProcTable) (mgr : Nat) : Nat → Prop
  | idle : WalkAccepts t mgr 0
  | kthreadd : WalkAccepts t mgr 2
  | manager : mgr ≠ 1 → WalkAccepts t mgr mgr
  | trusted (pid : Nat) (name : List Char) (ppid : Nat) :
      pid ≠ 0 → pid ≠ 1 → pid ≠ 2 → pid ≠ mgr →
      t pid = some (name, ppid) → trustedName name = true →
      WalkAccepts t mgr pid
  | parent (pid : Nat) (name : List Char) (ppid : Nat) :
      pid ≠ 0 → pid ≠ 1 → pid ≠ 2 → pid ≠ mgr →
      t pid = some (name, ppid) →
      WalkAccepts t mgr ppid → WalkAccepts t mgr pid

/-- Embeds checkPath (main.c 1210): refuse a path equal to the parent of the
mount point.  Abstracted to its boolean outcome. -/
def checkPath (pathIsMountParent : Bool) : Nat :=
  if pathIsMountParent then 0 else 1

/-- Embeds checkAccess (main.c 1229): a caller in the same PID namespace is
rejected (0) exactly when the isBoxRunning flag is set and accepted (1)
otherwise; a caller in a different namespace falls through to checkPath. -/
def checkAccess (sameNamespace : Bool) (isBoxRunning : Bool)
    (pathIsMountParent : Bool) : Nat :=
  if sameNamespace then
    if isBoxRunning then 0 else 1
  else checkPath pathIsMountParent

/-- The process-wide flag state touched by the signal handlers. -/
structure GlobalFlags where
  isBoxRunning : Bool

/-- Embeds SIGUSR1_handle (main.c 266): clears the sandbox-running flag. -/
def sigusr1Handle (s : GlobalFlags) : GlobalFlags :=
  { s with isBoxRunning := false }

/-- Embeds SIGUSR2_handle (main.c 276): sets the sandbox-running flag. -/
def sigusr2Handle (s : GlobalFlags) : GlobalFlags :=
  { s with isBoxRunning := true }

/-- Request admission as the handlers actually perform it: every ovl_*
handler gates a request with checkAuthority only.  checkAccess has no caller
anywhere in main.c, so the callers namespace and the sandbox-running flag,
passed here to state claim C2, are never consulted. -/
def requestAdmitted (_sameNamespace : Bool) (_isBoxRunning : Bool)
    (t : ProcTable) (mgr : Nat) (fuel : Nat) (ino rootId pid : Nat) : Option Bool :=
  checkAuthority t mgr fuel ino rootId pid

/-- Concrete process table for witnesses: pid 5 is a shell child of a
firejail process (pid 7) whose own parent is init. -/
def tableFirejail : ProcTable := fun pid =>
  if pid = 5 then some ("bash".toList, 7)
  else if pid = 7 then some ("firejail-wrap".toList, 1)
  else none

/-! ## Extended-attribute handlers (src/main.c lines 3448-3515, 5124-5248)

Each handler is embedded as the errno value of its fuse_reply_err call (0 for
the success reply), over an environment holding the outcome of every fallible
step it performs.  -/

/-- XATTR_PREFIX (main.c 220). -/
def xattrUserPref : List Char := "user.fuseoverlayfs.".toList
/-- PRIVILEGED_XATTR_PREFIX (main.c 224). -/
def xattrTrustedPref : List Char := "trusted.overlay.".toList
/-- XATTR_CONTAINERS_PREFIX (main.c 223). -/
def xattrContainersPref : List Char := "user.containers.".toList

/-- Embeds can_access_xattr (main.c 592). -/
def canAccessXattr (name : List Char) : Bool :=
  !(hasPref name xattrUserPref) && !(hasPref name xattrTrustedPref)

/-- Environment of an xattr handler run: outcome of the authority gate, the
noxattrs option, the node lookup (the Bool is the whiteout flag of the found
node), get_node_up (err carries the errno it leaves), and the backing
syscall (err carries its errno). -/
structure XattrEnv where
  authority : Bool
  disableXattrs : Bool
  lookup : Option Bool
  nodeUp : Except Nat Unit
  backing : Except Nat Unit

/-- Embeds ovl_setxattr (main.c 5124): authority gate, noxattrs gate,
reserved-prefix rejection with EPERM, lookup, copy-up, backing setxattr. -/
def ovlSetxattr (env : XattrEnv) (name : List Char) : Nat :=
  if !env.authority then ENOENT
  else if env.disableXattrs then ENOSYS
  else if hasPref name xattrTrustedPref || hasPref name xattrUserPref
          || hasPref name xattrContainersPref then EPERM
  else
    match env.lookup with
    | none => ENOENT
    | some whiteout =>
      if whiteout then ENOENT
      else
        match env.nodeUp with
        | .error e => e
        | .ok _ =>
          match env.backing with
          | .error e => e
          | .ok _ => 0

/-- Embeds ovl_getxattr (main.c 3448): authority gate, noxattrs gate,
reserved names answered with ENODATA before the node is even looked up. -/
def ovlGetxattr (env : XattrEnv) (name : List Char) : Nat :=
  if !env.authority then ENOENT
  else if env.disableXattrs then ENOSYS
  else if !(canAccessXattr name) then ENODATA
  else
    match env.lookup with
    | none => ENOENT
    | some whiteout =>
      if whiteout then ENOENT
      else
        match env.backing with
        | .error e => e
        | .ok _ => 0

/-- Embeds ovl_removexattr (main.c 5203): authority gate, lookup, copy-up,
backing removexattr.  The handler contains no reserved-prefix check and no
noxattrs check; the attribute name only reaches the backing syscall, so the
reply never depends on it and the name is not even a parameter here. -/
def ovlRemovexattr (env : XattrEnv) : Nat :=
  if !env.authority then ENOENT
  else
    match env.lookup with
    | none => ENOENT
    | some whiteout =>
      if whiteout then ENOENT
      else
        match env.nodeUp with
        | .error e => e
        | .ok _ =>
          match env.backing with
          | .error e => e
          | .ok _ => 0

/-! ## Name-length gate (src/main.c lines 5647-5682 and the six creating
handlers) -/

/-- WHITEOUT_MAX_LEN (main.c 228): sizeof(".wh.") - 1. -/
def whiteoutMaxLen : Nat := 4

/-- Embeds do_statfs (main.c 5647) restricted to the f_namemax field: on a
successful statvfs the reported f_namemax (an unsigned long) is decremented
by WHITEOUT_MAX_LEN with 64-bit wraparound. -/
def doStatfsNamemax (statRes : Option Nat) : Option Nat :=
  statRes.map (fun m => (m + (2 ^ 64 - whiteoutMaxLen)) % 2 ^ 64)

/-- Value of a C short holding the low 16 bits of n (twos complement). -/
def toShort (n : Nat) : Int :=
  let r : Nat := n % 2 ^ 16
  if r < 2 ^ 15 then (r : Int) else (r : Int) - 2 ^ 16

/-- Embeds get_fs_namemax (main.c 5665): on statvfs failure the default is
255 - WHITEOUT_MAX_LEN, otherwise the (already decremented) f_namemax is
stored into a C short.  The static cache always holds this same value, so it
is not modelled. -/
def getFsNamemax (statRes : Option Nat) : Int :=
  match doStatfsNamemax statRes with
  | none => (255 : Int) - (whiteoutMaxLen : Int)
  | some m => toShort m

/-- The value a C short contributes when compared against a size_t: the
usual arithmetic conversions reinterpret it as a 64-bit unsigned value. -/
def shortAsSizeT (v : Int) : Nat :=
  (v % (2 ^ 64 : Int)).toNat

/-- The six name-creating handlers that contain the name-length gate. -/
inductive CreatingOp
  | create | mknod | mkdir | symlink | link | rename
deriving DecidableEq

/-- Embeds the check `if (strlen (name) > get_fs_namemax (lo))` that appears
verbatim, directly after the authority gate and before any lookup or
mutation, in ovl_create (5704), ovl_link (6027), ovl_mknod (6177),
ovl_rename (6601), ovl_symlink (6761) and ovl_mkdir (6889); a failing check
is answered with ENAMETOOLONG (the op tag records which handler ran the
check; the code is identical in all six). -/
def nameLengthGate (_op : CreatingOp) (statRes : Option Nat) (nameLen : Nat) : Option Nat :=
  if nameLen > shortAsSizeT (getFsNamemax statRes) then some ENAMETOOLONG else none

/-! ## Hide-list merge (src/main.c lines 2263-2410) -/

/-- Embeds profile_mergelist (main.c 2308): every include entry whose data
compares strcmp-equal to no exclude entry is appended, in order, to the merge
list (profile_add_list, main.c 2263, appends at the tail). -/
def profileMergelist (includelist excludelist mergelist : List String) : List String :=
  match includelist with
  | [] => mergelist
  | x :: xs =>
    profileMergelist xs excludelist
      (if excludelist.any (fun e => e = x) then mergelist else mergelist ++ [x])

/-- Embeds the final two merge calls of parse_mergelist (main.c 2401-2402):
mergewhitelist = whitelist minus nowhitelist, then
mergelist = blacklist minus mergewhitelist; both accumulators start empty. -/
def parseMergelistResult (whitelist nowhitelist blacklist : List String) : List String :=
  let mergewhitelist := profileMergelist whitelist nowhitelist []
  profileMergelist blacklist mergewhitelist []

/-- Spec-side list subtraction for claim C7, following the spec sentence:
subtraction removes an entry exactly when an equal path string occurs in the
subtrahend list. -/
def listMinus (a sub : List String) : List String :=
  a.filter (fun x => decide (x ∉ sub))

/-! ## Identity map (src/main.c lines 1312-1354) -/

/-- One uidmapping/gidmapping triple (host base, presented base, length). -/
structure OvlMapping where
  host : Nat
  toId : Nat
  len : Nat

/-- The identity-map configuration fields of struct ovl_data.  squash_to_uid
and squash_to_gid are C ints holding -1 when unset, modelled as Option. -/
structure MapData where
  uidMappings : Option (List OvlMapping)
  gidMappings : Option (List OvlMapping)
  squashToRoot : Bool
  squashToUid : Option Nat
  squashToGid : Option Nat
  overflowUid : Nat
  overflowGid : Nat

/-- The range scan of the find_mapping loop (main.c 1328-1340): some v when a
triple covers id in the requested direction. -/
def findMappingScan (direct : Bool) (id : Nat) : List OvlMapping → Option Nat
  | [] => none
  | m :: ms =>
    if direct then
      if m.host ≤ id ∧ id < m.host + m.len then some (m.toId + (id - m.host))
      else findMappingScan direct id ms
    else
      if m.toId ≤ id ∧ id < m.toId + m.len then some (m.host + (id - m.toId))
      else findMappingScan direct id ms

/-- Embeds find_mapping (main.c 1312): squash overrides short-circuit in the
direct direction only; a missing table means identity; an uncovered id maps
to the overflow uid/gid. -/
def findMapping (id : Nat) (data : MapData) (direct uid : Bool) : Nat :=
  let mapping := if uid then data.uidMappings else data.gidMappings
  if direct && uid && data.squashToUid.isSome then data.squashToUid.getD 0
  else if direct && !uid && data.squashToGid.isSome then data.squashToGid.getD 0
  else if direct && data.squashToRoot then 0
  else
    match mapping with
    | none => id
    | some l =>
      match findMappingScan direct id l with
      | some v => v
      | none => if uid then data.overflowUid else data.overflowGid

/-- Embeds get_uid (main.c 1344): the presented-to-host direction. -/
def getUid (data : MapData) (id : Nat) : Nat :=
  findMapping id data false true

/-- Embeds get_gid (main.c 1350). -/
def getGid (data : MapData) (id : Nat) : Nat :=
  findMapping id data false false

/-! ## hide_node (src/main.c lines 1530-1619) -/

/-- The parent fields hide_node touches. -/
structure ParentSt where
  path : String
  lastOnUpper : Bool
  loaded : Bool
deriving DecidableEq

/-- The node fields hide_node reads and writes.  onUpper models
node->layer == get_upper_layer(lo) (asserted on entry), lastOnUpper models
node->last_layer == get_upper_layer(lo). -/
structure NodeSt where
  name : String
  path : String
  isDir : Bool
  onUpper : Bool
  lastOnUpper : Bool
  hidden : Bool
  hiddenDirfd : Int
  doRmdir : Bool
  doUnlink : Bool
  parent : Option ParentSt
deriving DecidableEq

/-- Outcomes of the external calls hide_node makes.  opaqNode and opaqParent
are the is_directory_opaque results (negative on error, 0 or 1 otherwise);
the Bool fields say whether the corresponding syscall succeeded. -/
structure HideEnv where
  asprintfOk : Bool
  counter : Nat
  opaqNode : Int
  opaqParent : Int
  canMknod : Bool
  renameWhiteoutOk : Bool
  createWhiteoutOk : Bool
  renameOk : Bool
  mkdirOk : Bool
  linkatOk : Bool
  workdirFd : Int

/-- The syscall phase of hide_node for unlink_src = true / false (main.c
1541-1601); none models every early `return` with a negative result.  The
needs_whiteout computation follows main.c 1547-1559 exactly, including the
fact that an is_directory_opaque error on the parent path is not propagated
(any value below 1 keeps needs_whiteout). -/
def hideNodeMove (env : HideEnv) (node : NodeSt) (unlinkSrc : Bool) : Option Unit :=
  if unlinkSrc then
    let nw1 := (!node.lastOnUpper)
      && (match node.parent with
          | some p => !p.lastOnUpper
          | none => false)
    (if !nw1 && node.isDir then
        if env.opaqNode < 0 then none else some (decide (env.opaqNode > 0))
     else some nw1).bind fun nw2 =>
    let nw3 := match node.parent with
      | some _ => nw2 && decide (env.opaqParent < 1)
      | none => nw2
    if nw3 then
      let moved := env.canMknod && env.renameWhiteoutOk
      if !moved && node.parent.isSome && !env.createWhiteoutOk then none
      else if !moved && !env.renameOk then none
      else some ()
    else
      if !env.renameOk then none else some ()
  else
    if node.isDir then
      if env.mkdirOk then some () else none
    else
      if env.linkatOk then some () else none

/-- Embeds hide_node (main.c 1530).  The asprintf of the working-directory
counter name comes first; the assert that the node lives on the upper layer
is modelled as a failure.  On success the node is updated as in main.c
1602-1618: the inode-table drop, hidden_dirfd, the counter path, the hidden
flag, parent->loaded cleared, parent detached, and do_rmdir or do_unlink set
(the other flag keeps its previous value).  The result pairs the updated node
with the updated old parent. -/
def hideNode (env : HideEnv) (node : NodeSt) (unlinkSrc : Bool) :
    Option (NodeSt × Option ParentSt) :=
  if !env.asprintfOk then none
  else if !node.onUpper then none
  else
    (hideNodeMove env node unlinkSrc).map fun _ =>
      ({ node with
          hiddenDirfd := env.workdirFd
          path := Nat.repr env.counter
          hidden := true
          parent := none
          doRmdir := if node.isDir then true else node.doRmdir
          doUnlink := if node.isDir then node.doUnlink else true },
       node.parent.map fun p => { p with loaded := false })

/-! ## copyup (src/main.c lines 4683-4872) -/

/-- Outcome of one external step of copyup: ok, or a failure that sets errno. -/
inductive StepRes
  | ok
  | err (e : Nat)
deriving DecidableEq

/-- The kind of the node being copied up, from the stat mode. -/
inductive FKind
  | dir | symlink | regular
deriving DecidableEq

/-- Outcomes of every external call copyup makes, in program order.
whiteoutUnlink is the unlinkat of the stale `.wh.` name, whose ENOENT errno
is tolerated; unlinkStagingErrno is whatever errno the cleanup unlinkat of
the exit block leaves behind. -/
structure CopyupEnv where
  statat : StepRes
  hasParent : Bool
  createParentDir : StepRes
  kind : FKind
  createNodeDir : StepRes
  readlink : StepRes
  symlinkat : StepRes
  openLower : StepRes
  sfdVal : Nat
  openStaging : StepRes
  dfdVal : Nat
  needChown : Bool
  fchown : StepRes
  mallocOk : Bool
  encode : StepRes
  futimens : StepRes
  copyXattr : StepRes
  setOrigin : StepRes
  renameStep : StepRes
  whiteoutUnlink : StepRes
  unlinkStagingErrno : Nat

/-- Observable outcome of copyup: the returned value, the errno the caller
sees, whether the staging entry was created, whether the exit block unlinked
it, and whether node->layer was set to the upper layer. -/
structure CopyupResult where
  ret : Int
  errno : Nat
  stagingCreated : Bool
  stagingUnlinked : Bool
  layerUpper : Bool
deriving DecidableEq

/-- The exit block of copyup (main.c 4865-4871): errno is saved, the staging
name is unlinked when ret is negative (which clobbers errno), and errno is
restored before returning. -/
def copyupExit (ret : Int) (errno : Nat) (env : CopyupEnv)
    (stagingCreated layerUpper : Bool) : CopyupResult :=
  let savedErrno := errno
  let _errnoAfterUnlink := if ret < 0 then env.unlinkStagingErrno else errno
  { ret := ret
    errno := savedErrno
    stagingCreated := stagingCreated
    stagingUnlinked := decide (ret < 0)
    layerUpper := layerUpper }

/-- The success label of copyup (main.c 4860-4863): ret becomes 0 and the
node layer pointer moves to the upper layer, then the exit block runs. -/
def copyupSuccess (errno : Nat) (env : CopyupEnv) (stagingCreated : Bool) : CopyupResult :=
  copyupExit 0 errno env stagingCreated true

/-- Embeds copyup (main.c 4683) over the step environment; errno0 is the
value of errno on entry.  The statat and create_node_directory(parent)
failures return directly without running the exit block (main.c 4705-4714);
every later failure jumps to the exit block.  The malloc branch (main.c
4773-4775) jumps to the exit block without touching ret, which at that point
still holds the staging file descriptor. -/
def copyup (env : CopyupEnv) (errno0 : Nat) : CopyupResult :=
  match env.statat with
  | .err e => { ret := -1, errno := e, stagingCreated := false,
                stagingUnlinked := false, layerUpper := false }
  | .ok =>
  match (if env.hasParent then env.createParentDir else .ok) with
  | .err e => { ret := -1, errno := e, stagingCreated := false,
                stagingUnlinked := false, layerUpper := false }
  | .ok =>
  match env.kind with
  | .dir =>
    match env.createNodeDir with
    | .err e => copyupExit (-1) e env false false
    | .ok => copyupSuccess errno0 env false
  | .symlink =>
    match env.readlink with
    | .err e => copyupExit (-1) e env false false
    | .ok =>
      match env.symlinkat with
      | .err e => copyupExit (-1) e env false false
      | .ok => copyupSuccess errno0 env false
  | .regular =>
    match env.openLower with
    | .err e => copyupExit (-1) e env false false
    | .ok =>
    match env.openStaging with
    | .err e => copyupExit (-1) e env false false
    | .ok =>
    match (if env.needChown then env.fchown else .ok) with
    | .err e => copyupExit (-1) e env true false
    | .ok =>
    if !env.mallocOk then
      copyupExit (Int.ofNat env.dfdVal) ENOMEM env true false
    else
    match env.encode with
    | .err e => copyupExit (-1) e env true false
    | .ok =>
    match env.futimens with
    | .err e => copyupExit (-1) e env true false
    | .ok =>
    match env.copyXattr with
    | .err e => copyupExit (-1) e env true false
    | .ok =>
    match env.setOrigin with
    | .err e => copyupExit (-1) e env true false
    | .ok =>
    match env.renameStep with
    | .err e => copyupExit (-1) e env true false
    | .ok =>
    match (if env.hasParent then env.whiteoutUnlink else .ok) with
    | .err e =>
      if e ≠ ENOENT then copyupExit 0 e env true false
      else copyupSuccess e env true
    | .ok => copyupSuccess errno0 env true

/-- Embeds get_node_up (main.c 4874) as the errno outcome: EROFS without an
upper layer, nothing to do when the node is already upper, otherwise copyup;
a non-negative copyup return reaches assert(node->layer == upper). -/
def getNodeUpAssertHolds (hasUpper nodeOnUpper : Bool) (cu : CopyupResult) : Bool :=
  if !hasUpper then true
  else if nodeOnUpper then true
  else if cu.ret < 0 then true
  else cu.layerUpper

/-! ## Block read/write (src/main.c lines 4044-4178) -/

/-- Embeds readOneBlock (main.c 4044) restricted to its return value.  The
pread outcome is an errno or the bytes read; the streamDecode/blockDecode
outcomes for this data are supplied as booleans.  In the gAllowHoles branch
the C loop assigns `ok = blockDecode(...)` at the first nonzero byte and
breaks, but the statement after the loop unconditionally overwrites ok with
true, so the branch contributes true whatever the decode returned. -/
def readOneBlock (gBlockSize : Nat) (gAllowHoles : Bool)
    (readRes : Except Nat (List Nat)) (streamOk blockOk : Bool) : Int :=
  match readRes with
  | .error e => -(e : Int)
  | .ok data =>
    let readSize := data.length
    if readSize = 0 then 0
    else
      let ok :=
        if readSize ≠ gBlockSize then streamOk
        else if gAllowHoles then
          let _okFromLoop := if data.any (fun b => b ≠ 0) then blockOk else false
          true
        else blockOk
      if ok then (readSize : Int) else -(EBADMSG : Int)

/-- Embeds writeOneBlock (main.c 4118) restricted to its return value: a
partial block goes through streamEncode and a full block through blockEncode
(outcomes supplied as booleans); encode failure yields -EBADMSG, a pwrite
failure its negated errno, a zero-length pwrite -EIO, otherwise all bytes are
written. -/
def writeOneBlock (gBlockSize : Nat) (dataLen : Nat)
    (streamOk blockOk : Bool) (pwriteRes : Except Nat Unit) (pwroteZero : Bool) : Int :=
  let ok := if dataLen ≠ gBlockSize then streamOk else blockOk
  if ok then
    match pwriteRes with
    | .error e => -(e : Int)
    | .ok _ => if pwroteZero then -(EIOval : Int) else (dataLen : Int)
  else -(EBADMSG : Int)

/-! ## Test fixtures used by witnesses -/

/-- Xattr handler environment in which every step succeeds. -/
def xattrEnvOk : XattrEnv :=
  { authority := true, disableXattrs := false, lookup := some false,
    nodeUp := .ok (), backing := .ok () }

/-- Copyup environment in which every step succeeds except the malloc of the
copy buffer, reached after the staging file has been created. -/
def copyupEnvMallocFail : CopyupEnv :=
  { statat := .ok, hasParent := true, createParentDir := .ok, kind := .regular,
    createNodeDir := .ok, readlink := .ok, symlinkat := .ok, openLower := .ok,
    sfdVal := 6, openStaging := .ok, dfdVal := 7, needChown := false,
    fchown := .ok, mallocOk := false, encode := .ok, futimens := .ok,
    copyXattr := .ok, setOrigin := .ok, renameStep := .ok,
    whiteoutUnlink := .ok, unlinkStagingErrno := ENOENT }

/-- Identity-map configuration with no tables and no squashing. -/
def mapDataPlain : MapData :=
  { uidMappings := none, gidMappings := none, squashToRoot := false,
    squashToUid := none, squashToGid := none,
    overflowUid := 65534, overflowGid := 65534 }

/-- hide_node environment in which every syscall succeeds. -/
def hideEnvTest : HideEnv :=
  { asprintfOk := true, counter := 1, opaqNode := 0, opaqParent := 0,
    canMknod := true, renameWhiteoutOk := true, createWhiteoutOk := true,
    renameOk := true, mkdirOk := true, linkatOk := true, workdirFd := 9 }

/-- A regular-file node on the upper layer with a parent directory. -/
def nodeTest : NodeSt :=
  { name := "a", path := "d/a", isDir := false, onUpper := true,
    lastOnUpper := false, hidden := false, hiddenDirfd := -1,
    doRmdir := false, doUnlink := false,
    parent := some { path := "d", lastOnUpper := false, loaded := true } }

/-! ## Helper lemmas -/

theorem unshuffleAux_shuffleAux (bs : List Nat) : ∀ p, unshuffleAux p (shuffleAux p bs) = bs := by
  induction bs with
  | nil => intro p; rfl
  | cons b bs ih =>
    intro p
    have hx : p ^^^ (p ^^^ b) = b := by
      rw [← Nat.xor_assoc, Nat.xor_self, Nat.zero_xor]
    simp [shuffleAux, unshuffleAux, hx, ih]

theorem unshuffleBytes_shuffleBytes (l : List Nat) : unshuffleBytes (shuffleBytes l) = l := by
  cases l with
  | nil => rfl
  | cons a rest => simp [shuffleBytes, unshuffleBytes, unshuffleAux_shuffleAux]

theorem flipBytes_length (l : List Nat) : (flipBytes l).length = l.length := by
  rw [flipBytes]
  split
  · simp
  · rename_i h
    have ih := flipBytes_length (l.drop 64)
    simp only [List.length_append, List.length_reverse, List.length_take, ih, List.length_drop]
    omega
termination_by l.length
decreasing_by
  simp only [List.length_drop]
  omega

theorem flipBytes_small (l : List Nat) (h : l.length ≤ 64) : flipBytes l = l.reverse := by
  rw [flipBytes, dif_pos h]

theorem flipBytes_big (l : List Nat) (h : ¬ l.length ≤ 64) :
    flipBytes l = (l.take 64).reverse ++ flipBytes (l.drop 64) := by
  rw [flipBytes, dif_neg h]

theorem flipBytes_flipBytes (l : List Nat) : flipBytes (flipBytes l) = l := by
  by_cases h : l.length ≤ 64
  · rw [flipBytes_small l h, flipBytes_small _ (by simpa using h), List.reverse_reverse]
  · have hlenA : ((l.take 64).reverse).length = 64 := by
      simp only [List.length_reverse, List.length_take]
      omega
    rw [flipBytes_big l h]
    rw [flipBytes_big _ (by
      simp only [List.length_append, hlenA, flipBytes_length, List.length_drop]
      omega)]
    have htake : (((l.take 64).reverse) ++ flipBytes (l.drop 64)).take 64 = (l.take 64).reverse := by
      rw [List.take_append_of_le_length (by omega)]
      exact List.take_of_length_le (by omega)
    have hdrop : (((l.take 64).reverse) ++ flipBytes (l.drop 64)).drop 64 = flipBytes (l.drop 64) := by
      rw [List.drop_append_of_le_length (by omega)]
      have hnil : ((l.take 64).reverse).drop 64 = [] := by
        apply List.drop_eq_nil_of_le
        omega
      rw [hnil, List.nil_append]
    rw [htake, hdrop, List.reverse_reverse]
    rw [flipBytes_flipBytes (l.drop 64)]
    exact List.take_append_drop 64 l
termination_by l.length
decreasing_by
  simp only [List.length_drop]
  omega

/-- C5: for every node cipher state, block number and buffer, blockDecode
inverts blockEncode when the buffer length is a multiple of the cipher block
size, and streamDecode inverts streamEncode (the shuffle/encrypt/flip/
shuffle/encrypt two-pass stream transform is undone exactly by the decode
sequence) for any length, in particular partial-block lengths. -/
theorem claim_C5_crypto_roundtrip (C : CipherCtx) (iv64 : Nat) (buf : List Nat) :
    (buf.length % C.blockBS = 0 →
      ∃ e, blockEncode C buf iv64 = some e ∧ blockDecode C e iv64 = some buf)
    ∧ (∀ e, streamEncode C buf iv64 = some e → streamDecode C e iv64 = some buf) := by
  constructor
  · intro hmod
    refine ⟨C.blockEnc iv64 buf, ?_, ?_⟩
    · unfold blockEncode
      rw [if_neg (by simp [hmod])]
      rw [if_pos (C.blockEnc_length iv64 buf)]
    · unfold blockDecode
      have hlen := C.blockEnc_length iv64 buf
      rw [if_neg (by simp [hlen, hmod])]
      rw [C.blockDec_enc]
      rw [if_pos (by omega)]
  · intro e he
    unfold streamEncode at he
    by_cases hl :
        (C.streamEnc (iv64 + 1) (shuffleBytes (flipBytes (C.streamEnc iv64 (shuffleBytes buf))))).length
          = buf.length
    · rw [if_pos hl] at he
      have he2 : e = _ := (Option.some.inj he).symm
      subst he2
      unfold streamDecode
      rw [C.streamDec_enc, unshuffleBytes_shuffleBytes, flipBytes_flipBytes,
        C.streamDec_enc, unshuffleBytes_shuffleBytes]
      rw [if_pos (by omega)]
    · rw [if_neg hl] at he
      exact absurd he (by simp)

/-- Witness for C5 at the concrete XOR cipher and a two-byte buffer. -/
theorem claim_C5_witness :
    ∃ e, blockEncode xorCipher [3, 5] 9 = some e ∧ blockDecode xorCipher e 9 = some [3, 5] :=
  (claim_C5_crypto_roundtrip xorCipher 9 [3, 5]).1 (by decide)

theorem isInBox_true_walk (t : ProcTable) (mgr : Nat) :
    ∀ fuel pid, isInBox t mgr fuel pid = some true → WalkAccepts t mgr pid := by
  intro fuel
  induction fuel with
  | zero => intro pid h; simp [isInBox] at h
  | succ n ih =>
    intro pid h
    rw [isInBox] at h
    by_cases h0 : pid = 0
    · subst h0; exact WalkAccepts.idle
    rw [if_neg h0] at h
    by_cases h1 : pid = 1
    · rw [if_pos h1] at h; simp at h
    rw [if_neg h1] at h
    by_cases h2 : pid = 2
    · subst h2; exact WalkAccepts.kthreadd
    rw [if_neg h2] at h
    by_cases hm : pid = mgr
    · subst hm; exact WalkAccepts.manager h1
    rw [if_neg hm] at h
    cases ht : t pid with
    | none => rw [ht] at h; simp at h
    | some v =>
      obtain ⟨name, ppid⟩ := v
      rw [ht] at h
      dsimp only at h
      by_cases htr : trustedName name = true
      · exact WalkAccepts.trusted pid name ppid h0 h1 h2 hm ht htr
      · rw [if_neg htr] at h
        exact WalkAccepts.parent pid name ppid h0 h1 h2 hm ht (ih ppid h)

theorem walk_isInBox_true (t : ProcTable) (mgr : Nat) {pid : Nat}
    (w : WalkAccepts t mgr pid) :
    ∀ fuel b, isInBox t mgr fuel pid = some b → b = true := by
  induction w with
  | idle =>
    intro fuel b h
    cases fuel with
    | zero => simp [isInBox] at h
    | succ n => rw [isInBox, if_pos rfl] at h; exact (Option.some.inj h).symm
  | kthreadd =>
    intro fuel b h
    cases fuel with
    | zero => simp [isInBox] at h
    | succ n =>
      rw [isInBox] at h
      norm_num at h
      exact h
  | manager hm1 =>
    intro fuel b h
    cases fuel with
    | zero => simp [isInBox] at h
    | succ n =>
      rw [isInBox] at h
      by_cases hm0 : mgr = 0
      · rw [if_pos hm0] at h; exact (Option.some.inj h).symm
      rw [if_neg hm0, if_neg hm1] at h
      by_cases hm2 : mgr = 2
      · rw [if_pos hm2] at h; exact (Option.some.inj h).symm
      rw [if_neg hm2, if_pos rfl] at h
      exact (Option.some.inj h).symm
  | trusted pid name ppid h0 h1 h2 hm ht htr =>
    intro fuel b h
    cases fuel with
    | zero => simp [isInBox] at h
    | succ n =>
      rw [isInBox, if_neg h0, if_neg h1, if_neg h2, if_neg hm, ht] at h
      dsimp only at h
      rw [if_pos htr] at h
      exact (Option.some.inj h).symm
  | parent pid name ppid h0 h1 h2 hm ht _w ih =>
    intro fuel b h
    cases fuel with
    | zero => simp [isInBox] at h
    | succ n =>
      rw [isInBox, if_neg h0, if_neg h1, if_neg h2, if_neg hm, ht] at h
      dsimp only at h
      by_cases htr : trustedName name = true
      · rw [if_pos htr] at h; exact (Option.some.inj h).symm
      · rw [if_neg htr] at h
        exact ih n b h

/-- C1: for a request whose target inode is not the filesystem root, a
terminating checkAuthority run accepts exactly when the upward walk of the
process table reaches the idle task, kthreadd, the recorded manager pid, or
a trusted short-name prefix before reaching init or a stat failure (with the
per-pid precedence of the source); and the uniform handler pattern answers a
rejection with the not-found error ENOENT, an errno independent of whether
the requested name exists. -/
theorem claim_C1_access_gate (t : ProcTable) (mgr fuel ino rootId pid : Nat) (b : Bool)
    (hroot : ino ≠ rootId)
    (h : checkAuthority t mgr fuel ino rootId pid = some b) :
    (b = true ↔ WalkAccepts t mgr pid)
    ∧ (b = false → authorityReply b = some ENOENT) := by
  unfold checkAuthority at h
  rw [if_neg hroot] at h
  refine ⟨⟨fun hb => ?_, fun hw => ?_⟩, fun hb => ?_⟩
  · subst hb; exact isInBox_true_walk t mgr fuel pid h
  · exact walk_isInBox_true t mgr hw fuel b h
  · subst hb; rfl

/-- Witness for C1: in the concrete table, pid 5 is accepted because its
parent pid 7 carries the firejail prefix, and the equivalence transports the
accepting run to the spec-side walk predicate. -/
theorem claim_C1_witness : WalkAccepts tableFirejail 99 5 :=
  (claim_C1_access_gate tableFirejail 99 10 4 1 5 true (by decide) (by decide)).1.mp rfl

/-- C2 counterexample: a request from a same-namespace caller (first
argument true) while the sandbox-running flag is set (second argument true)
is admitted, because request handlers gate only through checkAuthority and
checkAccess, the one function that reads the flag, has no caller; here the
caller pid 5 has a firejail ancestor and is accepted.  This refutes the
claim that every such request is rejected while the flag is set. -/
theorem claim_C2_counterexample :
    requestAdmitted true true tableFirejail 99 10 4 1 5 = some true := by decide

/-- C2 as amended: the checkAccess function itself does implement the
claimed policy, rejecting a same-namespace caller exactly when the
sandbox-running flag is set and accepting it when clear, and SIGUSR2 sets
while SIGUSR1 clears the flag; but no request handler invokes checkAccess,
so actual request admission is independent of both the flag and the callers
namespace. -/
theorem claim_C2_amended (flag pathm : Bool) (s : GlobalFlags)
    (ns1 ns2 f1 f2 : Bool) (t : ProcTable) (mgr fuel ino rootId pid : Nat) :
    checkAccess true flag pathm = (if flag then 0 else 1)
    ∧ (sigusr2Handle s).isBoxRunning = true
    ∧ (sigusr1Handle s).isBoxRunning = false
    ∧ requestAdmitted ns1 f1 t mgr fuel ino rootId pid
        = requestAdmitted ns2 f2 t mgr fuel ino rootId pid := by
  refine ⟨?_, rfl, rfl, rfl⟩
  unfold checkAccess
  rw [if_pos rfl]

/-- C3 counterexample: ovl_removexattr contains no reserved-prefix check, so
with every step succeeding it replies success (0), not EPERM, no matter
which attribute name — in particular a reserved one such as
trusted.overlay.opaque — the caller passes; the name never influences the
reply. -/
theorem claim_C3_counterexample :
    ovlRemovexattr xattrEnvOk = 0 ∧ ovlRemovexattr xattrEnvOk ≠ EPERM := by decide

/-- C3 as amended: for an attribute name carrying one of the reserved
prefixes user.fuseoverlayfs. or trusted.overlay., ovl_setxattr replies EPERM
and ovl_getxattr replies ENODATA regardless of the target node (both checks
run before the node is looked up), while ovl_removexattr performs no
reserved-name check at all: when lookup, copy-up and the backing call
succeed it replies success for any name. -/
theorem claim_C3_amended (name : List Char) (env : XattrEnv)
    (hres : hasPref name xattrUserPref = true ∨ hasPref name xattrTrustedPref = true)
    (hauth : env.authority = true) (hdis : env.disableXattrs = false) :
    ovlSetxattr env name = EPERM
    ∧ ovlGetxattr env name = ENODATA
    ∧ (env.lookup = some false → env.nodeUp = .ok () → env.backing = .ok () →
        ovlRemovexattr env = 0) := by
  refine ⟨?_, ?_, ?_⟩
  · unfold ovlSetxattr
    rw [hauth, hdis]
    have hcond : (hasPref name xattrTrustedPref || hasPref name xattrUserPref
        || hasPref name xattrContainersPref) = true := by
      rcases hres with h | h <;> simp [h]
    simp [hcond]
  · unfold ovlGetxattr canAccessXattr
    rw [hauth, hdis]
    have hcond : (!(hasPref name xattrUserPref) && !(hasPref name xattrTrustedPref)) = false := by
      rcases hres with h | h <;> simp [h]
    simp [hcond]
  · intro hl hn hb
    unfold ovlRemovexattr
    rw [hauth, hl, hn, hb]
    rfl

/-- Witness for C3 at the reserved name user.fuseoverlayfs.origin and the
all-steps-succeed environment. -/
theorem claim_C3_witness :
    ovlSetxattr xattrEnvOk ("user.fuseoverlayfs.origin".toList) = EPERM
    ∧ ovlGetxattr xattrEnvOk ("user.fuseoverlayfs.origin".toList) = ENODATA := by
  have h := claim_C3_amended ("user.fuseoverlayfs.origin".toList) xattrEnvOk
    (Or.inl (by decide)) rfl rfl
  exact ⟨h.1, h.2.1⟩

/-- C4: evaluation of the code at the failing input.  In the default
configuration (gBlockSize 1024, gAllowHoles true), a full block whose first
byte is nonzero is passed to blockDecode, yet when blockDecode reports
failure readOneBlock still returns the positive read size because the
statement after the scan loop unconditionally overwrites ok with true; with
gAllowHoles disabled the same failing decode is answered with -EBADMSG, and
writeOneBlock does answer a failing encode with -EBADMSG.  The bad-message
error is therefore not returned in the default allow-holes configuration,
contradicting the claim (and the intent visible in the !ok check that
follows the loop). -/
theorem claim_C4_allow_holes_masks_decode_failure :
    readOneBlock 1024 true (.ok (1 :: List.replicate 1023 0)) true false = 1024
    ∧ readOneBlock 1024 false (.ok (1 :: List.replicate 1023 0)) true false = -(EBADMSG : Int)
    ∧ writeOneBlock 1024 1024 true false (.ok ()) false = -(EBADMSG : Int) := by
  have hlen : (1 :: List.replicate 1023 (0 : Nat)).length = 1024 := by
    rw [List.length_cons, List.length_replicate]
  refine ⟨?_, ?_, by decide⟩
  · unfold readOneBlock
    simp only [hlen]
    norm_num
  · unfold readOneBlock
    simp only [hlen]
    norm_num

set_option maxRecDepth 4000 in
/-- C6: in each of the six name-creating handlers (create, mknod, mkdir,
symlink, link, rename), when statvfs reports a maximum name length m within
the range representable after the short truncation, the gate that runs
before any lookup or mutation rejects the requested name with ENAMETOOLONG
exactly when its length exceeds m minus the whiteout-prefix length 4. -/
theorem claim_C6_name_too_long (op : CreatingOp) (m len : Nat)
    (h4 : 4 ≤ m) (hshort : m < 32772) :
    nameLengthGate op (some m) len = some ENAMETOOLONG ↔ len > m - 4 := by
  unfold nameLengthGate shortAsSizeT getFsNamemax doStatfsNamemax toShort whiteoutMaxLen
  simp only [Option.map_some']
  dsimp only
  have h64 : (2 : Nat) ^ 64 = 18446744073709551616 := by norm_num
  have h16 : (2 : Nat) ^ 16 = 65536 := by norm_num
  have h15 : (2 : Nat) ^ 15 = 32768 := by norm_num
  have h64i : (2 : Int) ^ 64 = 18446744073709551616 := by norm_num
  have h16i : (2 : Int) ^ 16 = 65536 := by norm_num
  simp only [h64, h16, h15, h64i, h16i]
  have hmod : (m + (18446744073709551616 - 4)) % 18446744073709551616 % 65536 = m - 4 := by
    omega
  rw [hmod]
  rw [if_pos (show m - 4 < 32768 by omega)]
  have hint : ((m - 4 : Nat) : Int) % 18446744073709551616 = ((m - 4 : Nat) : Int) := by
    omega
  rw [hint, Int.toNat_natCast]
  constructor
  · intro h
    by_contra hle
    rw [if_neg (by omega)] at h
    exact Option.noConfusion h
  · intro h
    rw [if_pos (by omega)]

/-- Witness for C6: with a reported f_namemax of 255, a 252-character name
is rejected by the mkdir gate and the bound is exactly 251. -/
theorem claim_C6_witness :
    nameLengthGate CreatingOp.mkdir (some 255) 252 = some ENAMETOOLONG :=
  (claim_C6_name_too_long CreatingOp.mkdir 255 252 (by decide) (by decide)).mpr (by decide)

theorem list_any_eq_mem (e : List String) (x : String) :
    (e.any fun y => decide (y = x)) = decide (x ∈ e) := by
  induction e with
  | nil => simp
  | cons a as ih =>
    rw [List.any_cons, ih]
    simp only [List.mem_cons, Bool.decide_or]
    congr 1
    exact decide_eq_decide.mpr eq_comm

theorem profileMergelist_eq (i : List String) :
    ∀ (e acc : List String),
      profileMergelist i e acc = acc ++ i.filter (fun x => !(e.any fun y => decide (y = x))) := by
  induction i with
  | nil => intro e acc; simp [profileMergelist]
  | cons x xs ih =>
    intro e acc
    rw [profileMergelist]
    by_cases hx : (e.any fun y => decide (y = x)) = true
    · rw [if_pos hx, ih, List.filter_cons]
      simp [hx]
    · rw [if_neg hx, ih, List.filter_cons]
      simp only [Bool.not_eq_true] at hx
      simp [hx]

/-- C7: the effective hide-list computed by parse_mergelist equals the
blacklist minus (whitelist minus nowhitelist), where subtraction drops an
entry exactly when an equal path string occurs in the subtrahend list. -/
theorem claim_C7_hide_list (whitelist nowhitelist blacklist : List String) :
    parseMergelistResult whitelist nowhitelist blacklist
      = listMinus blacklist (listMinus whitelist nowhitelist) := by
  unfold parseMergelistResult listMinus
  rw [profileMergelist_eq, profileMergelist_eq]
  simp only [List.nil_append, list_any_eq_mem, decide_not]

/-- C8: evaluation of the code at the failing input.  With every step up to
the copy-buffer malloc succeeding and the malloc failing — a step strictly
after the staging file has been created — copyup returns the non-negative
staging descriptor (7) instead of a negative error, does not unlink the
staging entry, and leaves the node layer pointer untouched; consequently the
assert in get_node_up, which demands that a non-negative copyup return has
moved the node to the upper layer, is violated.  This contradicts the
claimed unlink-and-return-the-error contract. -/
theorem claim_C8_copyup_malloc_leak :
    copyup copyupEnvMallocFail 0 =
      { ret := 7, errno := ENOMEM, stagingCreated := true,
        stagingUnlinked := false, layerUpper := false }
    ∧ (0 : Int) ≤ (copyup copyupEnvMallocFail 0).ret
    ∧ getNodeUpAssertHolds true false (copyup copyupEnvMallocFail 0) = false := by
  refine ⟨by decide, by decide, by decide⟩

/-- C9: with no squash override active, the translation is the identity in
both directions whenever the direction-relevant mapping table is absent, and
whenever a table is present the overflow uid/gid is produced exactly on the
ids no (host, presented, length) range covers, a covered id being sent to
its range image. -/
theorem claim_C9_identity_map (data : MapData) (id : Nat) (direct uid : Bool)
    (hsq : data.squashToUid = none ∧ data.squashToGid = none ∧ data.squashToRoot = false) :
    ((if uid then data.uidMappings else data.gidMappings) = none →
      findMapping id data direct uid = id)
    ∧ (∀ l, (if uid then data.uidMappings else data.gidMappings) = some l →
        (findMappingScan direct id l = none →
          findMapping id data direct uid = (if uid then data.overflowUid else data.overflowGid))
        ∧ (∀ v, findMappingScan direct id l = some v → findMapping id data direct uid = v)) := by
  obtain ⟨h1, h2, h3⟩ := hsq
  unfold findMapping
  rw [h1, h2, h3]
  simp only [Option.isSome_none, Bool.and_false, Bool.false_and, Bool.and_self,
    Bool.false_eq_true, if_false]
  constructor
  · intro hnone
    rw [hnone]
  · intro l hl
    rw [hl]
    dsimp only
    constructor
    · intro hscan
      rw [hscan]
    · intro v hscan
      rw [hscan]

/-- Witness for C9 with no tables configured: uid 1234 maps to itself in
both directions. -/
theorem claim_C9_witness :
    findMapping 1234 mapDataPlain false true = 1234
    ∧ findMapping 1234 mapDataPlain true true = 1234 :=
  ⟨(claim_C9_identity_map mapDataPlain 1234 false true ⟨rfl, rfl, rfl⟩).1 rfl,
   (claim_C9_identity_map mapDataPlain 1234 true true ⟨rfl, rfl, rfl⟩).1 rfl⟩

/-- C10: whenever hide_node succeeds on an upper-layer node whose deletion
flags are still clear, the returned node is hidden, detached from its parent
(whose loaded flag is reset), renamed to the freshly drawn working-directory
counter name, and carries exactly one deletion-mode flag: do_rmdir for a
directory, do_unlink otherwise. -/
theorem claim_C10_hide_node (env : HideEnv) (node : NodeSt) (us : Bool)
    (n2 : NodeSt) (p2 : Option ParentSt)
    (hflags : node.doRmdir = false ∧ node.doUnlink = false)
    (hup : node.onUpper = true)
    (h : hideNode env node us = some (n2, p2)) :
    n2.hidden = true ∧ n2.parent = none ∧ n2.path = Nat.repr env.counter
    ∧ p2 = node.parent.map (fun p => { p with loaded := false })
    ∧ n2.doRmdir = node.isDir ∧ n2.doUnlink = !node.isDir := by
  unfold hideNode at h
  cases hao : env.asprintfOk with
  | false => rw [hao] at h; simp at h
  | true =>
    rw [hao] at h
    rw [hup] at h
    simp only [Bool.not_true, Bool.false_eq_true, if_false] at h
    cases hm : hideNodeMove env node us with
    | none => rw [hm] at h; simp at h
    | some u =>
      rw [hm] at h
      simp only [Option.map_some'] at h
      obtain ⟨hn, hp⟩ := Prod.mk.injEq .. ▸ Option.some.inj h
      subst hn
      subst hp
      refine ⟨rfl, rfl, rfl, rfl, ?_, ?_⟩
      · cases hd : node.isDir <;> simp [hd, hflags.1]
      · cases hd : node.isDir <;> simp [hd, hflags.2]

/-- Witness for C10: hiding the concrete regular-file node with every
syscall succeeding yields a hidden node named 1 with only do_unlink set. -/
theorem claim_C10_witness :
    ∃ n2 p2, hideNode hideEnvTest nodeTest true = some (n2, p2)
      ∧ n2.hidden = true ∧ n2.parent = none ∧ n2.path = "1"
      ∧ n2.doRmdir = false ∧ n2.doUnlink = true := by
  have h : hideNode hideEnvTest nodeTest true =
      some (⟨"a", "1", false, true, false, true, 9, false, true, none⟩,
            some ⟨"d", false, false⟩) := by decide
  have hc := claim_C10_hide_node hideEnvTest nodeTest true _ _ ⟨rfl, rfl⟩ rfl h
  exact ⟨_, _, h, hc.1, hc.2.1, hc.2.2.1, hc.2.2.2.2.1, hc.2.2.2.2.2⟩

end Ovl
